import Mathlib

/-!
Verification of the Teryaq VRP & cold-chain stability core.

Shallow embedding of:
  * `stability_router.py` — the per-order cold-chain stability state machine
    (`update_stability`), with time passed explicitly as a rational timestamp;
  * `main.py` — `split_into_trips`, `validate_multitrip`,
    `combine_and_validate_multitrip` (RouteValidator / RouteMerger) over an
    explicit request-scoped geo oracle;
  * `main.py` — `OSRMClient.get_edge` with the haversine fallback, over ℝ.

Python floats are idealised as ℚ (or ℝ where trigonometry is involved);
Python `int()` truncation is modelled by `pyInt`.
-/

/-! ### Stability monitor (`stability_router.py`) -/

/-- `FRIDGE_MAX = 8.0` from stability_router.py. -/
def FRIDGE_MAX : ℚ := 8

/-- The per-order entry of `STABILITY_STATE` in stability_router.py. -/
structure StabState where
  timer_started : Bool
  timer_started_at : Option ℚ
  active : Bool
  max_exc : ℚ
  max_time : ℚ
deriving DecidableEq

/-- Response shapes of the stability API (the documented shapes plus the
error paths of `update_stability`).  `timerStarted` and
`alertStabilityExpired` are part of the documented API surface; whether the
code ever produces them is settled by the theorems below. -/
inductive StabResponse where
  | inactive
  | httpError (code : ℕ)
  | internalError
  | alertMaxExcursion
  | alertStabilityExpired
  | timerStarted
  | remainingSeconds (n : ℤ)
  | safe
deriving DecidableEq

/-- Python `int()` applied to a rational: truncation toward zero. -/
def pyInt (q : ℚ) : ℤ := if 0 ≤ q then ⌊q⌋ else ⌈q⌉

/-- `POST /stability/start` body: the state stored for a freshly started
order (stability_router.py, `start_stability`). -/
def start_stability (max_exc max_time : ℚ) : StabState :=
  { timer_started := false
    timer_started_at := none
    active := true
    max_exc := max_exc
    max_time := max_time }

/-- `POST /stability/update` body (stability_router.py, `update_stability`),
after the `STABILITY_STATE` lookup.  `hasDash` is whether the order row has a
`dashboard_id`; `now` is the value of `_now()` for this update.  The
dashboard writes are side effects outside the returned value. -/
def update_stability (st : StabState) (hasDash : Bool) (temp now : ℚ) :
    StabState × StabResponse :=
  if st.active = false then (st, .inactive)
  else if hasDash = false then (st, .httpError 400)
  else if st.max_exc < temp then ({ st with active := false }, .alertMaxExcursion)
  else
    let st1 := if FRIDGE_MAX < temp ∧ st.timer_started = false then
                 { st with timer_started := true, timer_started_at := some now }
               else st
    if st1.timer_started then
      match st1.timer_started_at with
      | none => (st1, .internalError)
      | some t0 =>
          let remaining := st1.max_time - (now - t0)
          if remaining ≤ 0 then ({ st1 with active := false }, .remainingSeconds 0)
          else (st1, .remainingSeconds (pyInt remaining))
    else (st1, .safe)

/-- C2: an active monitored order with a dashboard, on a reading strictly above
`max_excursion_temp`, is deactivated and answered with the
`MAX_EXCURSION_EXCEEDED` alert, with the timer fields untouched and the timer
logic skipped — for every timer state. -/
theorem update_stability_max_excursion_priority
    (st : StabState) (temp now : ℚ)
    (hact : st.active = true) (hexc : st.max_exc < temp) :
    update_stability st true temp now =
      ({ st with active := false }, .alertMaxExcursion) := by
  unfold update_stability
  rw [hact]
  simp [hexc]

theorem update_stability_max_excursion_priority_witness :
    update_stability
        { timer_started := true, timer_started_at := some 50, active := true,
          max_exc := 15, max_time := 1800 } true 16 60 =
      ({ timer_started := true, timer_started_at := some 50, active := false,
         max_exc := 15, max_time := 1800 }, .alertMaxExcursion) :=
  update_stability_max_excursion_priority
    { timer_started := true, timer_started_at := some 50, active := true,
      max_exc := 15, max_time := 1800 } 16 60 rfl (by norm_num)

/-- C3: at the spec's own scenario (`max_excursion_temp = 15`,
`max_time_exertion = 1800 s`, timer started at time `0`, reading `temp = 9`
at time `1900`), the code deactivates the order but answers
`{"remaining_seconds": 0}` — it never produces the `STABILITY_TIME_EXPIRED`
alert that the spec (and the repository's own `simulator.py` client)
expects. -/
theorem update_stability_expiry_no_alert :
    update_stability
        { timer_started := true, timer_started_at := some 0, active := true,
          max_exc := 15, max_time := 1800 } true 9 1900 =
      ({ timer_started := true, timer_started_at := some 0, active := false,
         max_exc := 15, max_time := 1800 }, .remainingSeconds 0) ∧
    (update_stability
        { timer_started := true, timer_started_at := some 0, active := true,
          max_exc := 15, max_time := 1800 } true 9 1900).2 ≠
      .alertStabilityExpired := by
  have h :
      update_stability
          { timer_started := true, timer_started_at := some 0, active := true,
            max_exc := 15, max_time := 1800 } true 9 1900 =
        ({ timer_started := true, timer_started_at := some 0, active := false,
           max_exc := 15, max_time := 1800 }, .remainingSeconds 0) := by
    norm_num [update_stability, FRIDGE_MAX]
  exact ⟨h, by rw [h]; simp⟩

/-- C10: for an active monitored order whose row has no `dashboard_id`,
`update_stability` answers HTTP 400 and leaves the state unchanged — for any
temperature, including readings above `max_excursion_temp`. -/
theorem update_stability_no_dashboard_400
    (st : StabState) (temp now : ℚ) (hact : st.active = true) :
    update_stability st false temp now = (st, .httpError 400) := by
  unfold update_stability
  rw [hact]
  simp

theorem update_stability_no_dashboard_400_witness :
    update_stability
        { timer_started := false, timer_started_at := none, active := true,
          max_exc := 15, max_time := 1800 } false 16 60 =
      ({ timer_started := false, timer_started_at := none, active := true,
         max_exc := 15, max_time := 1800 }, .httpError 400) :=
  update_stability_no_dashboard_400
    { timer_started := false, timer_started_at := none, active := true,
      max_exc := 15, max_time := 1800 } 16 60 rfl

/-- Helper: an update on an active order whose timer is already running, with a
tolerable temperature and positive remaining time, leaves the state unchanged
and answers the floored remaining seconds. -/
theorem update_stability_timer_running (st : StabState) (t0 temp now : ℚ)
    (hact : st.active = true) (hts : st.timer_started = true)
    (hta : st.timer_started_at = some t0) (htemp : temp ≤ st.max_exc)
    (hpos : 0 < st.max_time - (now - t0)) :
    update_stability st true temp now =
      (st, .remainingSeconds ⌊st.max_time - (now - t0)⌋) := by
  obtain ⟨ts, ta, ac, me, mt⟩ := st
  simp only at hact hts hta htemp hpos
  subst hact
  subst hts
  subst hta
  simp [update_stability, not_lt.mpr htemp, not_le.mpr hpos, pyInt, le_of_lt hpos]

/-- C4 (amended): once the timer is started no update unsets it or overwrites
`timer_started_at`; and across two successive timer-running updates the
reported `remaining_seconds` (floored to whole seconds by `int()`) is
non-increasing as real time advances, and strictly decreases once at least one
full second separates the updates. -/
theorem stability_timer_monotonicity :
    (∀ (st : StabState) (hasDash : Bool) (temp now : ℚ),
      st.timer_started = true →
      (update_stability st hasDash temp now).1.timer_started = true ∧
      (update_stability st hasDash temp now).1.timer_started_at =
        st.timer_started_at) ∧
    (∀ (st : StabState) (t0 temp1 temp2 t1 t2 : ℚ),
      st.active = true → st.timer_started = true →
      st.timer_started_at = some t0 →
      temp1 ≤ st.max_exc → temp2 ≤ st.max_exc → t1 ≤ t2 →
      0 < st.max_time - (t2 - t0) →
      (update_stability st true temp1 t1).1 = st ∧
      (update_stability st true temp1 t1).2 =
        .remainingSeconds ⌊st.max_time - (t1 - t0)⌋ ∧
      (update_stability (update_stability st true temp1 t1).1 true temp2 t2).2 =
        .remainingSeconds ⌊st.max_time - (t2 - t0)⌋ ∧
      ⌊st.max_time - (t2 - t0)⌋ ≤ ⌊st.max_time - (t1 - t0)⌋ ∧
      (t1 + 1 ≤ t2 →
        ⌊st.max_time - (t2 - t0)⌋ < ⌊st.max_time - (t1 - t0)⌋)) := by
  constructor
  · intro st hasDash temp now h
    obtain ⟨ts, ta, ac, me, mt⟩ := st
    simp only at h
    subst h
    rcases ta with _ | t0 <;> cases ac <;> cases hasDash <;>
      simp [update_stability] <;> split_ifs <;> simp
  · intro st t0 temp1 temp2 t1 t2 hact hts hta h1 h2 h12 hrem
    have hpos1 : 0 < st.max_time - (t1 - t0) := by linarith
    have e1 := update_stability_timer_running st t0 temp1 t1 hact hts hta h1 hpos1
    have e2 := update_stability_timer_running st t0 temp2 t2 hact hts hta h2 hrem
    refine ⟨by rw [e1], by rw [e1], by rw [e1]; exact congrArg Prod.snd e2, ?_, ?_⟩
    · exact Int.floor_le_floor (by linarith)
    · intro hsep
      have hle : st.max_time - (t2 - t0) ≤ st.max_time - (t1 - t0) - 1 := by
        linarith
      have h2' : ⌊st.max_time - (t2 - t0)⌋ ≤ ⌊st.max_time - (t1 - t0) - 1⌋ :=
        Int.floor_le_floor hle
      have h3 : ⌊st.max_time - (t1 - t0) - 1⌋ = ⌊st.max_time - (t1 - t0)⌋ - 1 := by
        rw [show ((1 : ℚ)) = ((1 : ℤ) : ℚ) by norm_num, Int.floor_sub_int]
      omega

theorem stability_timer_monotonicity_witness :
    ((update_stability
        { timer_started := true, timer_started_at := some 0, active := true,
          max_exc := 15, max_time := 1800 } true 6 100).1.timer_started = true ∧
      (update_stability
        { timer_started := true, timer_started_at := some 0, active := true,
          max_exc := 15, max_time := 1800 } true 6 100).1.timer_started_at =
        some 0) ∧
    ⌊(1800 : ℚ) - (200 - 0)⌋ < ⌊(1800 : ℚ) - (100 - 0)⌋ :=
  ⟨stability_timer_monotonicity.1
      { timer_started := true, timer_started_at := some 0, active := true,
        max_exc := 15, max_time := 1800 } true 6 100 rfl,
    (stability_timer_monotonicity.2
      { timer_started := true, timer_started_at := some 0, active := true,
        max_exc := 15, max_time := 1800 } 0 6 9 100 200 rfl rfl rfl
      (by norm_num) (by norm_num) (by norm_num) (by norm_num)).2.2.2.2
      (by norm_num)⟩

/-- C4 counterexample: with the timer started at time `0` and budget `1800 s`,
updates at `t = 10.2 s` and `t = 10.7 s` both report `remaining_seconds =
1789` — real time advanced but the reported value did not strictly decrease,
because the response truncates to whole seconds. -/
theorem stability_remaining_not_strictly_decreasing :
    (51 / 5 : ℚ) < 107 / 10 ∧
    update_stability
        { timer_started := true, timer_started_at := some 0, active := true,
          max_exc := 15, max_time := 1800 } true 9 (51 / 5) =
      ({ timer_started := true, timer_started_at := some 0, active := true,
         max_exc := 15, max_time := 1800 }, .remainingSeconds 1789) ∧
    update_stability
        { timer_started := true, timer_started_at := some 0, active := true,
          max_exc := 15, max_time := 1800 } true 9 (107 / 10) =
      ({ timer_started := true, timer_started_at := some 0, active := true,
         max_exc := 15, max_time := 1800 }, .remainingSeconds 1789) := by
  refine ⟨by norm_num, ?_, ?_⟩ <;> norm_num [update_stability, FRIDGE_MAX, pyInt]

/-- C9 (amended): for an active monitored order with a dashboard whose timer
is not started, a reading with `fridge_max < temp ≤ max_excursion_temp` sets
`timer_started := true` and `timer_started_at := now`; the response, however,
falls through to the timer branch (elapsed `0`) and reports
`{remaining_seconds : ⌊max_time⌋}`, not `{timer_started : true}`. -/
theorem timer_start_response_remaining (st : StabState) (temp now : ℚ)
    (hact : st.active = true) (hts : st.timer_started = false)
    (hlo : FRIDGE_MAX < temp) (hhi : temp ≤ st.max_exc)
    (hmt : 0 < st.max_time) :
    update_stability st true temp now =
      ({ st with timer_started := true, timer_started_at := some now },
        .remainingSeconds ⌊st.max_time⌋) := by
  obtain ⟨ts, ta, ac, me, mt⟩ := st
  simp only at hact hts hhi hmt
  subst hact
  subst hts
  simp [update_stability, hlo, not_lt.mpr hhi, pyInt, not_le.mpr hmt, le_of_lt hmt]

theorem timer_start_response_remaining_witness :
    update_stability
        { timer_started := false, timer_started_at := none, active := true,
          max_exc := 15, max_time := 1800 } true 9 100 =
      ({ timer_started := true, timer_started_at := some 100, active := true,
         max_exc := 15, max_time := 1800 }, .remainingSeconds 1800) := by
  have h := timer_start_response_remaining
    { timer_started := false, timer_started_at := none, active := true,
      max_exc := 15, max_time := 1800 } 9 100 rfl rfl
    (by norm_num [FRIDGE_MAX]) (by norm_num) (by norm_num)
  rw [h]
  norm_num

/-- C9 counterexample: the update that starts the timer is answered with
`{remaining_seconds : 1800}`, not with the `{timer_started : true}` shape the
claim states. -/
theorem timer_start_not_timer_started_response :
    update_stability
        { timer_started := false, timer_started_at := none, active := true,
          max_exc := 15, max_time := 1800 } true 9 100 =
      ({ timer_started := true, timer_started_at := some 100, active := true,
         max_exc := 15, max_time := 1800 }, .remainingSeconds 1800) ∧
    (update_stability
        { timer_started := false, timer_started_at := none, active := true,
          max_exc := 15, max_time := 1800 } true 9 100).2 ≠ .timerStarted := by
  have h :
      update_stability
          { timer_started := false, timer_started_at := none, active := true,
            max_exc := 15, max_time := 1800 } true 9 100 =
        ({ timer_started := true, timer_started_at := some 100, active := true,
           max_exc := 15, max_time := 1800 }, .remainingSeconds 1800) := by
    norm_num [update_stability, FRIDGE_MAX, pyInt]
  exact ⟨h, by rw [h]; simp⟩

/-! ### Route validation (`main.py`) -/

/-- `SHIFT_LIMIT_SEC = 8 * 3600` from main.py. -/
def SHIFT_LIMIT_SEC : ℚ := 8 * 3600

/-- Request-scoped geo oracle: the behaviour of one `OSRMClient` instance as
seen by the validator.  `dur u v` is the duration in seconds that `get_edge`
returns for `(u, v)`, and `fb u v` whether that edge ended up in
`fallback_edges` — both are fixed for the whole request by the client's
per-instance cache. -/
structure Geo where
  dur : ℕ → ℕ → ℚ
  fb : ℕ → ℕ → Bool

/-- Loop body of `split_into_trips` (main.py:520-532); `cur` and `load` are
the currently open trip and its accumulated load. -/
def splitGo (cap : ℕ) (demand : ℕ → ℕ) :
    List ℕ → List ℕ → ℕ → List (List ℕ × ℕ)
  | [], cur, load => if cur = [] then [] else [(cur, load)]
  | c :: rest, cur, load =>
    let d := demand c
    if cur ≠ [] ∧ cap < load + d then
      (cur, load) :: splitGo cap demand rest [c] d
    else
      splitGo cap demand rest (cur ++ [c]) (load + d)

/-- `split_into_trips(route, cap, demand)` (main.py:520-532). -/
def split_into_trips (route : List ℕ) (cap : ℕ) (demand : ℕ → ℕ) :
    List (List ℕ × ℕ) :=
  splitGo cap demand route [] 0

theorem splitGo_invariant (cap : ℕ) (demand : ℕ → ℕ) :
    ∀ (l cur : List ℕ) (load : ℕ),
      load = (cur.map demand).sum → (2 ≤ cur.length → load ≤ cap) →
      ∀ p ∈ splitGo cap demand l cur load,
        p.2 = (p.1.map demand).sum ∧ (2 ≤ p.1.length → p.2 ≤ cap) := by
  intro l
  induction l with
  | nil =>
    intro cur load hsum hcap p hp
    by_cases hc : cur = []
    · simp [splitGo, hc] at hp
    · simp [splitGo, hc] at hp
      subst hp
      exact ⟨hsum, hcap⟩
  | cons c rest ih =>
    intro cur load hsum hcap p hp
    by_cases hg : cur ≠ [] ∧ cap < load + demand c
    · rw [splitGo, if_pos hg] at hp
      rcases List.mem_cons.mp hp with h | h
      · subst h
        exact ⟨hsum, hcap⟩
      · exact ih [c] (demand c) (by simp) (by intro h2; simp at h2) p h
    · rw [splitGo, if_neg hg] at hp
      refine ih (cur ++ [c]) (load + demand c) (by simp [hsum]) ?_ p hp
      intro hlen
      push_neg at hg
      have hne : cur ≠ [] := by
        intro hnil
        rw [hnil] at hlen
        simp at hlen
      exact hg hne

/-- C6 (amended): every trip produced by `split_into_trips` carries its load,
equal to the sum of demands over its customers; that load is at most the
capacity for every trip with at least two customers.  (A trip consisting of a
single customer whose demand alone exceeds the capacity is still emitted —
the documented edge-case policy — so the bound cannot hold for singleton
trips.) -/
theorem split_trips_capacity_invariant
    (route : List ℕ) (cap : ℕ) (demand : ℕ → ℕ) :
    ∀ p ∈ split_into_trips route cap demand,
      p.2 = (p.1.map demand).sum ∧ (2 ≤ p.1.length → p.2 ≤ cap) :=
  splitGo_invariant cap demand route [] 0 (by simp) (by intro h; simp at h)

theorem split_trips_capacity_invariant_witness :
    (([1, 2], 2) : List ℕ × ℕ).2 =
      ((([1, 2] : List ℕ).map fun _ => 1).sum) ∧
    (2 ≤ ([1, 2] : List ℕ).length → (([1, 2], 2) : List ℕ × ℕ).2 ≤ 15) :=
  split_trips_capacity_invariant [1, 2] 15 (fun _ => 1) ([1, 2], 2) (by decide)

/-- C6 counterexample: a route whose single customer has demand `20` against
capacity `15` is emitted as the one-customer trip `([1], 20)`, whose demand
sum exceeds the capacity — the unrestricted claim is false. -/
theorem split_trips_singleton_over_capacity :
    split_into_trips [1] 15 (fun _ => 20) = [([1], 20)] ∧
    ¬ (∀ p ∈ split_into_trips [1] 15 (fun _ => 20),
        (p.1.map fun _ => 20).sum ≤ 15) := by
  constructor
  · decide
  · decide

/-- The strict-lateness test applied at an arrival `(u, v, clk)` of the
per-trip walk (main.py:555-577): the arrival node is a customer, its ETA in
minutes exceeds its due time (`due.get(v, 9999)` passed in as a total map),
and the edge `(u, v)` was not served via fallback. -/
def isStrictLate (geo : Geo) (due : ℕ → ℤ) (a : ℕ × ℕ × ℚ) : Bool :=
  decide (a.2.1 ≠ 0) && decide ((due a.2.1 : ℚ) < a.2.2 / 60) &&
    !(geo.fb a.1 a.2.1)

/-- The arrival events of one trip walk: `(u, v, clk)` with `clk` the trip
clock right after traversing the edge `u → v`. -/
def arrivals (geo : Geo) : ℕ → List ℕ → ℚ → List (ℕ × ℕ × ℚ)
  | _, [], _ => []
  | u, v :: rest, clk =>
    (u, v, clk + geo.dur u v) :: arrivals geo v rest (clk + geo.dur u v)

/-- Inner loop of `validate_multitrip` (main.py:555-577): walk the rest of
`full` from node `u` with trip clock `clk`, returning `none` at the first
strict (non-fallback) deadline violation and the final clock otherwise. -/
def tripWalk (geo : Geo) (due : ℕ → ℤ) : ℕ → List ℕ → ℚ → Option ℚ
  | _, [], clk => some clk
  | u, v :: rest, clk =>
    if isStrictLate geo due (u, v, clk + geo.dur u v) then none
    else tripWalk geo due v rest (clk + geo.dur u v)

/-- Total travel seconds of a walk, ignoring deadlines. -/
def tripTime (geo : Geo) : ℕ → List ℕ → ℚ
  | _, [] => 0
  | u, v :: rest => geo.dur u v + tripTime geo v rest

/-- Outer loop of `validate_multitrip` (main.py:546-592): one iteration per
trip (walk `0 → trip → 0` with a fresh clock, stitch the expanded path), then
the final shift-limit check on the accumulated `total_t`. -/
def validateGo (geo : Geo) (due : ℕ → ℤ) :
    List (List ℕ × ℕ) → ℚ → List ℕ → Bool × List ℕ × List ℕ
  | [], total, expanded =>
    if SHIFT_LIMIT_SEC < total then (false, [], [])
    else (true, expanded, expanded.filter (fun n => n ≠ 0))
  | (trip, _) :: rest, total, expanded =>
    let full : List ℕ := 0 :: (trip ++ [0])
    let expanded1 := if expanded = [] then expanded ++ full
                     else expanded ++ full.tail
    match tripWalk geo due 0 (trip ++ [0]) 0 with
    | none => (false, [], [])
    | some clk => validateGo geo due rest (total + clk) expanded1

/-- `validate_multitrip(route, cap, demand, due, osrm)` (main.py:534-592). -/
def validate_multitrip (route : List ℕ) (cap : ℕ) (demand : ℕ → ℕ)
    (due : ℕ → ℤ) (geo : Geo) : Bool × List ℕ × List ℕ :=
  validateGo geo due (split_into_trips route cap demand) 0 []

/-- The `total_t` of `validate_multitrip`: the per-trip clocks (each restarted
at zero when the trip leaves the depot) summed over all trips of the route. -/
def routeTotalTime (route : List ℕ) (cap : ℕ) (demand : ℕ → ℕ)
    (geo : Geo) : ℚ :=
  ((split_into_trips route cap demand).map
    (fun t => tripTime geo 0 (t.1 ++ [0]))).sum

theorem tripWalk_none_of_late (geo : Geo) (due : ℕ → ℤ) :
    ∀ (vs : List ℕ) (u : ℕ) (clk : ℚ),
      (∃ a ∈ arrivals geo u vs clk, isStrictLate geo due a = true) →
      tripWalk geo due u vs clk = none := by
  intro vs
  induction vs with
  | nil => intro u clk h; simp [arrivals] at h
  | cons v rest ih =>
    intro u clk h
    rcases h with ⟨a, ha, hl⟩
    rw [arrivals] at ha
    by_cases hh : isStrictLate geo due (u, v, clk + geo.dur u v) = true
    · rw [tripWalk, if_pos hh]
    · rcases List.mem_cons.mp ha with h1 | h1
      · subst h1; exact absurd hl hh
      · rw [tripWalk, if_neg hh]
        exact ih v (clk + geo.dur u v) ⟨a, h1, hl⟩

theorem tripWalk_some_of_no_late (geo : Geo) (due : ℕ → ℤ) :
    ∀ (vs : List ℕ) (u : ℕ) (clk : ℚ),
      (∀ a ∈ arrivals geo u vs clk, isStrictLate geo due a = false) →
      tripWalk geo due u vs clk = some (clk + tripTime geo u vs) := by
  intro vs
  induction vs with
  | nil => intro u clk _; simp [tripWalk, tripTime]
  | cons v rest ih =>
    intro u clk h
    have hh : isStrictLate geo due (u, v, clk + geo.dur u v) = false :=
      h _ (by rw [arrivals]; exact List.mem_cons_self _ _)
    rw [tripWalk, if_neg (by simp [hh])]
    rw [ih v (clk + geo.dur u v)
      (fun a ha => h a (by rw [arrivals]; exact List.mem_cons_of_mem _ ha))]
    rw [tripTime]
    ring_nf

theorem tripWalk_some_val (geo : Geo) (due : ℕ → ℤ) :
    ∀ (vs : List ℕ) (u : ℕ) (clk c : ℚ),
      tripWalk geo due u vs clk = some c → c = clk + tripTime geo u vs := by
  intro vs
  induction vs with
  | nil =>
    intro u clk c h
    simp [tripWalk] at h
    simp [tripTime, h]
  | cons v rest ih =>
    intro u clk c h
    rw [tripWalk] at h
    by_cases hh : isStrictLate geo due (u, v, clk + geo.dur u v) = true
    · rw [if_pos hh] at h; exact absurd h (by simp)
    · rw [if_neg hh] at h
      have := ih v (clk + geo.dur u v) c h
      rw [this, tripTime]
      ring

theorem validateGo_false_of_none (geo : Geo) (due : ℕ → ℤ) :
    ∀ (trips : List (List ℕ × ℕ)) (total : ℚ) (expanded : List ℕ),
      (∃ t ∈ trips, tripWalk geo due 0 (t.1 ++ [0]) 0 = none) →
      (validateGo geo due trips total expanded).1 = false := by
  intro trips
  induction trips with
  | nil => intro total expanded h; simp at h
  | cons t rest ih =>
    intro total expanded h
    obtain ⟨trip, load⟩ := t
    rcases h with ⟨t', ht', hnone⟩
    rcases List.mem_cons.mp ht' with h1 | h1
    · subst h1
      rw [validateGo]
      simp only at hnone
      rw [hnone]
    · rw [validateGo]
      cases hw : tripWalk geo due 0 (trip ++ [0]) 0 with
      | none => rfl
      | some clk =>
        exact ih _ _ ⟨t', h1, hnone⟩

theorem validateGo_shift_check (geo : Geo) (due : ℕ → ℤ) :
    ∀ (trips : List (List ℕ × ℕ)) (total : ℚ) (expanded : List ℕ),
      (∀ t ∈ trips, tripWalk geo due 0 (t.1 ++ [0]) 0 =
        some (tripTime geo 0 (t.1 ++ [0]))) →
      (validateGo geo due trips total expanded).1 =
        !decide (SHIFT_LIMIT_SEC <
          total + (trips.map (fun t => tripTime geo 0 (t.1 ++ [0]))).sum) := by
  intro trips
  induction trips with
  | nil =>
    intro total expanded _
    rw [validateGo]
    by_cases h : SHIFT_LIMIT_SEC < total
    · simp [h]
    · simp [h]
  | cons t rest ih =>
    intro total expanded h
    obtain ⟨trip, load⟩ := t
    have hw := h (trip, load) (List.mem_cons_self _ _)
    simp only at hw
    rw [validateGo, hw]
    rw [ih (total + tripTime geo 0 (trip ++ [0])) _
      (fun t' ht' => h t' (List.mem_cons_of_mem _ ht'))]
    simp only [List.map_cons, List.sum_cons]
    ring_nf

/-- C1: during the per-trip simulation of `validate_multitrip`, a late arrival
at a customer (`ETA minutes > due`) via a non-fallback edge forces
`feasible = false`; when every late arrival happened via a fallback edge the
route is not rejected for lateness — it validates whenever the shift total is
within the limit. -/
theorem validate_deadline_fallback_policy (route : List ℕ) (cap : ℕ)
    (demand : ℕ → ℕ) (due : ℕ → ℤ) (geo : Geo) :
    ((∃ t ∈ split_into_trips route cap demand,
        ∃ a ∈ arrivals geo 0 (t.1 ++ [0]) 0, isStrictLate geo due a = true) →
      (validate_multitrip route cap demand due geo).1 = false) ∧
    ((∀ t ∈ split_into_trips route cap demand,
        ∀ a ∈ arrivals geo 0 (t.1 ++ [0]) 0, isStrictLate geo due a = false) →
      routeTotalTime route cap demand geo ≤ SHIFT_LIMIT_SEC →
      (validate_multitrip route cap demand due geo).1 = true) := by
  constructor
  · rintro ⟨t, ht, a, ha, hl⟩
    exact validateGo_false_of_none geo due _ 0 []
      ⟨t, ht, tripWalk_none_of_late geo due _ 0 0 ⟨a, ha, hl⟩⟩
  · intro h hshift
    have hall : ∀ t ∈ split_into_trips route cap demand,
        tripWalk geo due 0 (t.1 ++ [0]) 0 =
          some (tripTime geo 0 (t.1 ++ [0])) := by
      intro t ht
      rw [tripWalk_some_of_no_late geo due _ 0 0 (h t ht), zero_add]
    rw [validate_multitrip, validateGo_shift_check geo due _ 0 [] hall]
    simp only [zero_add]
    rw [Bool.not_eq_true']
    exact decide_eq_false (not_lt.mpr hshift)

theorem validate_deadline_fallback_policy_witness :
    (validate_multitrip [1] 15 (fun _ => 1)
      (fun v => if v = 1 then 4 else 9999)
      ⟨fun _ _ => 300, fun _ _ => false⟩).1 = false ∧
    (validate_multitrip [1] 15 (fun _ => 1)
      (fun v => if v = 1 then 4 else 9999)
      ⟨fun _ _ => 300, fun _ _ => true⟩).1 = true := by
  constructor
  · refine (validate_deadline_fallback_policy [1] 15 (fun _ => 1)
      (fun v => if v = 1 then 4 else 9999)
      ⟨fun _ _ => 300, fun _ _ => false⟩).1 ⟨([1], 1), by decide, (0, 1, 300), ?_, ?_⟩
    · norm_num [arrivals]
    · norm_num [isStrictLate]
  · refine (validate_deadline_fallback_policy [1] 15 (fun _ => 1)
      (fun v => if v = 1 then 4 else 9999)
      ⟨fun _ _ => 300, fun _ _ => true⟩).2 ?_ ?_
    · intro t ht a ha
      simp [isStrictLate]
    · norm_num [routeTotalTime, split_into_trips, splitGo, tripTime,
        SHIFT_LIMIT_SEC]

/-- C5: whatever the deadline outcomes and fallback statuses, a route whose
per-trip clocks (each restarted at zero at the depot) sum to more than the
8-hour shift limit is rejected by `validate_multitrip`. -/
theorem validate_shift_limit_rejection (route : List ℕ) (cap : ℕ)
    (demand : ℕ → ℕ) (due : ℕ → ℤ) (geo : Geo)
    (h : SHIFT_LIMIT_SEC < routeTotalTime route cap demand geo) :
    (validate_multitrip route cap demand due geo).1 = false := by
  by_cases hex : ∃ t ∈ split_into_trips route cap demand,
      tripWalk geo due 0 (t.1 ++ [0]) 0 = none
  · exact validateGo_false_of_none geo due _ 0 [] hex
  · push_neg at hex
    have hall : ∀ t ∈ split_into_trips route cap demand,
        tripWalk geo due 0 (t.1 ++ [0]) 0 =
          some (tripTime geo 0 (t.1 ++ [0])) := by
      intro t ht
      cases hw : tripWalk geo due 0 (t.1 ++ [0]) 0 with
      | none => exact absurd hw (hex t ht)
      | some c =>
        have hc := tripWalk_some_val geo due _ 0 0 c hw
        rw [hc, zero_add]
    rw [validate_multitrip, validateGo_shift_check geo due _ 0 [] hall]
    simp only [zero_add]
    rw [Bool.not_eq_false']
    exact decide_eq_true h

theorem validate_shift_limit_rejection_witness :
    (validate_multitrip [1] 15 (fun _ => 1) (fun _ => 9999)
      ⟨fun _ _ => 20000, fun _ _ => false⟩).1 = false :=
  validate_shift_limit_rejection [1] 15 (fun _ => 1) (fun _ => 9999)
    ⟨fun _ _ => 20000, fun _ _ => false⟩
    (by norm_num [routeTotalTime, split_into_trips, splitGo, tripTime,
      SHIFT_LIMIT_SEC])

/-! ### Route merging (`main.py`, `combine_and_validate_multitrip`) -/

/-- Inner `for j` loop (main.py:604-613): scan the routes after `ri` for the
first `rj` whose concatenation `ri ++ rj` validates; on success return the
scanned routes with that `rj` removed, together with the merged raw customer
sequence (`rw`). -/
def findJ (cap : ℕ) (demand : ℕ → ℕ) (due : ℕ → ℤ) (geo : Geo)
    (ri : List ℕ) : List (List ℕ) → Option (List (List ℕ) × List ℕ)
  | [] => none
  | rj :: rest =>
    let res := validate_multitrip (ri ++ rj) cap demand due geo
    if res.1 then some (rest, res.2.2)
    else
      match findJ cap demand due geo ri rest with
      | some (rest1, rw) => some (rj :: rest1, rw)
      | none => none

/-- One full `for i` pass (main.py:603-615): find the first pair `(i, j)`,
`i < j`, whose concatenation validates; the new route pool drops both and
appends the merged sequence at the end (`pop(j); pop(i); append(rw)`).
`none` means no pair merged, ending the `while merged` loop. -/
def mergeStep (cap : ℕ) (demand : ℕ → ℕ) (due : ℕ → ℤ) (geo : Geo) :
    List (List ℕ) → Option (List (List ℕ))
  | [] => none
  | ri :: rest =>
    match findJ cap demand due geo ri rest with
    | some (rest1, rw) => some (rest1 ++ [rw])
    | none =>
      match mergeStep cap demand due geo rest with
      | some rest2 => some (ri :: rest2)
      | none => none

/-- The `while merged` fixed-point loop (main.py:599-615).  Every merge
removes two pool entries and appends one, so fuel `raw.length` always
suffices to reach the fixed point. -/
def mergeLoop (cap : ℕ) (demand : ℕ → ℕ) (due : ℕ → ℤ) (geo : Geo) :
    ℕ → List (List ℕ) → List (List ℕ)
  | 0, raw => raw
  | fuel + 1, raw =>
    match mergeStep cap demand due geo raw with
    | none => raw
    | some raw1 => mergeLoop cap demand due geo fuel raw1

/-- `combine_and_validate_multitrip(routes, ...)` (main.py:596-624): drop
empty routes, run the pairwise merge loop to its fixed point, then keep the
expanded (depot-delimited) path of every pool entry that still validates on
its own. -/
def combine_and_validate_multitrip (routes : List (List ℕ)) (cap : ℕ)
    (demand : ℕ → ℕ) (due : ℕ → ℤ) (geo : Geo) : List (List ℕ) :=
  let raw := routes.filter (fun r => r ≠ [])
  let raw2 := mergeLoop cap demand due geo raw.length raw
  raw2.filterMap (fun r =>
    let res := validate_multitrip r cap demand due geo
    if res.1 then some res.2.1 else none)

theorem findJ_length (cap : ℕ) (demand : ℕ → ℕ) (due : ℕ → ℤ) (geo : Geo)
    (ri : List ℕ) :
    ∀ (l rest1 : List (List ℕ)) (rw : List ℕ),
      findJ cap demand due geo ri l = some (rest1, rw) →
      rest1.length + 1 = l.length := by
  intro l
  induction l with
  | nil => intro rest1 rw h; simp [findJ] at h
  | cons rj rest ih =>
    intro rest1 rw h
    rw [findJ] at h
    by_cases hv : (validate_multitrip (ri ++ rj) cap demand due geo).1 = true
    · rw [if_pos hv] at h
      simp at h
      rw [← h.1]
      simp
    · rw [if_neg hv] at h
      cases hf : findJ cap demand due geo ri rest with
      | none => rw [hf] at h; simp at h
      | some p =>
        obtain ⟨r1, w⟩ := p
        rw [hf] at h
        simp at h
        have := ih r1 w hf
        rw [← h.1]
        simp only [List.length_cons]
        omega

theorem mergeStep_length (cap : ℕ) (demand : ℕ → ℕ) (due : ℕ → ℤ)
    (geo : Geo) :
    ∀ (raw raw1 : List (List ℕ)),
      mergeStep cap demand due geo raw = some raw1 →
      raw1.length + 1 = raw.length := by
  intro raw
  induction raw with
  | nil => intro raw1 h; simp [mergeStep] at h
  | cons ri rest ih =>
    intro raw1 h
    rw [mergeStep] at h
    cases hf : findJ cap demand due geo ri rest with
    | some p =>
      obtain ⟨rest1, rw⟩ := p
      rw [hf] at h
      simp at h
      have := findJ_length cap demand due geo ri rest rest1 rw hf
      rw [← h]
      simp only [List.length_append, List.length_cons]
      simp at this ⊢
      omega
    | none =>
      rw [hf] at h
      cases hm : mergeStep cap demand due geo rest with
      | none => rw [hm] at h; simp at h
      | some rest2 =>
        rw [hm] at h
        simp at h
        have := ih rest2 hm
        rw [← h]
        simp only [List.length_cons]
        omega

theorem mergeLoop_fixed (cap : ℕ) (demand : ℕ → ℕ) (due : ℕ → ℤ)
    (geo : Geo) :
    ∀ (fuel : ℕ) (raw : List (List ℕ)), raw.length ≤ fuel →
      mergeStep cap demand due geo
        (mergeLoop cap demand due geo fuel raw) = none := by
  intro fuel
  induction fuel with
  | zero =>
    intro raw h
    have : raw = [] := List.length_eq_zero.mp (Nat.le_zero.mp h)
    subst this
    rfl
  | succ fuel ih =>
    intro raw h
    rw [mergeLoop]
    cases hm : mergeStep cap demand due geo raw with
    | none => exact hm
    | some raw1 =>
      have hl := mergeStep_length cap demand due geo raw raw1 hm
      exact ih raw1 (by omega)

theorem findJ_none_all_false (cap : ℕ) (demand : ℕ → ℕ) (due : ℕ → ℤ)
    (geo : Geo) (ri : List ℕ) :
    ∀ (l : List (List ℕ)), findJ cap demand due geo ri l = none →
      ∀ rj ∈ l, (validate_multitrip (ri ++ rj) cap demand due geo).1 = false := by
  intro l
  induction l with
  | nil => intro _ rj hj; simp at hj
  | cons rk rest ih =>
    intro h rj hj
    rw [findJ] at h
    by_cases hv : (validate_multitrip (ri ++ rk) cap demand due geo).1 = true
    · rw [if_pos hv] at h; simp at h
    · rw [if_neg hv] at h
      rcases List.mem_cons.mp hj with h1 | h1
      · subst h1
        exact Bool.not_eq_true _ ▸ Bool.eq_false_iff.mpr hv
      · cases hf : findJ cap demand due geo ri rest with
        | some p => obtain ⟨r1, w⟩ := p; rw [hf] at h; simp at h
        | none => exact ih hf rj h1

theorem mergeStep_none_no_pair (cap : ℕ) (demand : ℕ → ℕ) (due : ℕ → ℤ)
    (geo : Geo) :
    ∀ (raw : List (List ℕ)), mergeStep cap demand due geo raw = none →
      ∀ (ri rj : List ℕ), List.Sublist [ri, rj] raw →
        (validate_multitrip (ri ++ rj) cap demand due geo).1 = false := by
  intro raw
  induction raw with
  | nil => intro _ ri rj hs; simp at hs
  | cons rk rest ih =>
    intro h ri rj hs
    rw [mergeStep] at h
    cases hf : findJ cap demand due geo rk rest with
    | some p => obtain ⟨r1, w⟩ := p; rw [hf] at h; simp at h
    | none =>
      rw [hf] at h
      cases hm : mergeStep cap demand due geo rest with
      | some rest2 => rw [hm] at h; simp at h
      | none =>
        cases hs with
        | cons _ hs1 => exact ih hm ri rj hs1
        | cons₂ _ hs1 =>
          exact findJ_none_all_false cap demand due geo rk rest hf rj
            (List.singleton_sublist.mp hs1)

/-- C8 (amended): the `while merged` loop does reach a fixed point of the raw
customer-sequence pool — after it, no ordered pair of remaining raw routes
concatenates to a validating route, so re-running the pairwise pass merges
nothing.  (Idempotence of the full `Merge` on its own output fails, because
the output consists of depot-delimited expanded paths rather than the raw
pool — see the counterexample.) -/
theorem merge_fixed_point_no_pair (routes : List (List ℕ)) (cap : ℕ)
    (demand : ℕ → ℕ) (due : ℕ → ℤ) (geo : Geo) (ri rj : List ℕ)
    (h : List.Sublist [ri, rj]
      (mergeLoop cap demand due geo
        (routes.filter (fun r => r ≠ [])).length
        (routes.filter (fun r => r ≠ [])))) :
    (validate_multitrip (ri ++ rj) cap demand due geo).1 = false :=
  mergeStep_none_no_pair cap demand due geo _
    (mergeLoop_fixed cap demand due geo _ _ le_rfl) ri rj h

/-- Demand map of the merge scenario: depot `0` has demand `0`, customers
demand `1`. -/
def mDem : ℕ → ℕ := fun n => if n = 0 then 0 else 1

/-- Due map of the merge scenario: customer `2` is due at minute `5`, all
other nodes at `9999`. -/
def mDue : ℕ → ℤ := fun n => if n = 2 then 5 else 9999

/-- Geo oracle of the merge scenario: the direct edge `1 → 2` takes 600 s,
every other edge 60 s; no fallback edges. -/
def mGeo : Geo := ⟨fun u v => if u = 1 ∧ v = 2 then 600 else 60, fun _ _ => false⟩

theorem merge_fixed_point_no_pair_witness :
    (validate_multitrip ([1] ++ [2]) 15 mDem mDue mGeo).1 = false :=
  merge_fixed_point_no_pair [[1], [2]] 15 mDem mDue mGeo [1] [2] (by
    have h : mergeLoop 15 mDem mDue mGeo
        (([[1], [2]] : List (List ℕ)).filter (fun r => r ≠ [])).length
        (([[1], [2]] : List (List ℕ)).filter (fun r => r ≠ [])) =
        [[1], [2]] := by
      norm_num [mergeLoop, mergeStep, findJ, validate_multitrip, validateGo,
        tripWalk, isStrictLate, split_into_trips, splitGo, SHIFT_LIMIT_SEC,
        mDem, mDue, mGeo]
    rw [h])

/-- C8 counterexample: with `mDem`/`mDue`/`mGeo`, `Merge [[1], [2]]` keeps the
two routes apart (the direct edge `1 → 2` misses customer 2's deadline) and
returns the expanded paths `[[0,1,0], [0,2,0]]`; running `Merge` on that
output, the depot-delimited paths concatenate into a trip that detours
through the depot, meets every deadline, and merges — after which the merged
raw sequence `[1, 2]` fails its final solo validation, so the second `Merge`
returns `[]`, not the same set of routes. -/
theorem merge_not_idempotent :
    combine_and_validate_multitrip [[1], [2]] 15 mDem mDue mGeo =
      [[0, 1, 0], [0, 2, 0]] ∧
    combine_and_validate_multitrip
        (combine_and_validate_multitrip [[1], [2]] 15 mDem mDue mGeo)
        15 mDem mDue mGeo = [] ∧
    combine_and_validate_multitrip
        (combine_and_validate_multitrip [[1], [2]] 15 mDem mDue mGeo)
        15 mDem mDue mGeo ≠
      combine_and_validate_multitrip [[1], [2]] 15 mDem mDue mGeo := by
  have h1 : combine_and_validate_multitrip [[1], [2]] 15 mDem mDue mGeo =
      [[0, 1, 0], [0, 2, 0]] := by
    norm_num [combine_and_validate_multitrip, mergeLoop, mergeStep, findJ,
      validate_multitrip, validateGo, tripWalk, isStrictLate,
      split_into_trips, splitGo, SHIFT_LIMIT_SEC, mDem, mDue, mGeo,
      List.filterMap_cons, List.filterMap_nil]
  have h2 : combine_and_validate_multitrip [[0, 1, 0], [0, 2, 0]] 15
      mDem mDue mGeo = [] := by
    norm_num [combine_and_validate_multitrip, mergeLoop, mergeStep, findJ,
      validate_multitrip, validateGo, tripWalk, isStrictLate,
      split_into_trips, splitGo, SHIFT_LIMIT_SEC, mDem, mDue, mGeo,
      List.filterMap_cons, List.filterMap_nil]
  refine ⟨h1, by rw [h1, h2], by rw [h1, h2]; simp⟩

/-! ### OSRM client (`main.py`, `OSRMClient.get_edge`) -/

/-- `FALLBACK_SPEED_MPS = 16.67` (main.py:40), i.e. about 60 km/h. -/
noncomputable def FALLBACK_SPEED_MPS : ℝ := 1667 / 100

/-- `math.radians` — degrees to radians. -/
noncomputable def radians (x : ℝ) : ℝ := x * Real.pi / 180

/-- `haversine_m(lat1, lon1, lat2, lon2)` (main.py:420-426), with
`R = 6371000` substituted. -/
noncomputable def haversine_m (lat1 lon1 lat2 lon2 : ℝ) : ℝ :=
  2 * 6371000 * Real.arcsin (Real.sqrt
    (Real.sin (radians (lat2 - lat1) / 2) ^ 2 +
      Real.cos (radians lat1) * Real.cos (radians lat2) *
        Real.sin (radians (lon2 - lon1) / 2) ^ 2))

/-- The state of one `OSRMClient` instance (main.py:432-438): the coordinate
map given at construction, the per-instance edge cache, and the
`fallback_edges` set (both as total maps). -/
structure OSRMState where
  coords : ℕ → ℝ × ℝ
  cache : ℕ × ℕ → Option (ℝ × ℝ)
  fallback_edges : ℕ × ℕ → Bool

/-- `OSRMClient.get_edge(u, v)` (main.py:448-496).  `resp` is the outcome of
the OSRM table query for this edge: `some (distance, duration)` on a usable
reply, `none` on any failure (timeout, non-2xx status, malformed or
incomplete body — every such path raises into the same `except` handler).
On failure the haversine fallback at `FALLBACK_SPEED_MPS` is computed, the
edge is recorded in `fallback_edges`, and the result is cached; the function
is total, so the call never raises to the caller. -/
noncomputable def get_edge (st : OSRMState) (u v : ℕ)
    (resp : Option (ℝ × ℝ)) : OSRMState × (ℝ × ℝ) :=
  match st.cache (u, v) with
  | some dt => (st, dt)
  | none =>
    match resp with
    | some dt =>
      ({ st with cache := fun p => if p = (u, v) then some dt else st.cache p },
        dt)
    | none =>
      let d := haversine_m (st.coords u).1 (st.coords u).2
        (st.coords v).1 (st.coords v).2
      let t := d / FALLBACK_SPEED_MPS
      ({ st with
          cache := fun p => if p = (u, v) then some (d, t) else st.cache p,
          fallback_edges := fun p =>
            if p = (u, v) then true else st.fallback_edges p },
        (d, t))

theorem haversine_m_nonneg (lat1 lon1 lat2 lon2 : ℝ) :
    0 ≤ haversine_m lat1 lon1 lat2 lon2 :=
  mul_nonneg (by norm_num) (Real.arcsin_nonneg.mpr (Real.sqrt_nonneg _))

/-- C7 (amended): on a cache miss where the OSRM query fails, `get_edge`
answers the great-circle distance and the duration at the assumed
60 km/h speed, both nonnegative (and finite, being real numbers); it records
`(u, v)` in `fallback_edges` and caches the result.  The call never raises:
the failure path is total.  (Positivity, as the claim states it, fails when
the two nodes carry identical coordinates — see the counterexample.) -/
theorem get_edge_fallback_properties (st : OSRMState) (u v : ℕ)
    (hc : st.cache (u, v) = none) :
    (get_edge st u v none).2 =
      (haversine_m (st.coords u).1 (st.coords u).2
          (st.coords v).1 (st.coords v).2,
        haversine_m (st.coords u).1 (st.coords u).2
          (st.coords v).1 (st.coords v).2 / FALLBACK_SPEED_MPS) ∧
    0 ≤ (get_edge st u v none).2.1 ∧
    0 ≤ (get_edge st u v none).2.2 ∧
    (get_edge st u v none).1.fallback_edges (u, v) = true ∧
    (get_edge st u v none).1.cache (u, v) = some (get_edge st u v none).2 := by
  unfold get_edge
  rw [hc]
  refine ⟨rfl, haversine_m_nonneg _ _ _ _,
    div_nonneg (haversine_m_nonneg _ _ _ _) (by norm_num [FALLBACK_SPEED_MPS]),
    by simp, by simp⟩

theorem get_edge_fallback_properties_witness :
    (get_edge ⟨fun _ => (3, 4), fun _ => none, fun _ => false⟩ 0 1 none).2 =
      (haversine_m 3 4 3 4, haversine_m 3 4 3 4 / FALLBACK_SPEED_MPS) ∧
    0 ≤ (get_edge ⟨fun _ => (3, 4), fun _ => none,
      fun _ => false⟩ 0 1 none).2.1 ∧
    0 ≤ (get_edge ⟨fun _ => (3, 4), fun _ => none,
      fun _ => false⟩ 0 1 none).2.2 ∧
    (get_edge ⟨fun _ => (3, 4), fun _ => none,
      fun _ => false⟩ 0 1 none).1.fallback_edges (0, 1) = true ∧
    (get_edge ⟨fun _ => (3, 4), fun _ => none,
      fun _ => false⟩ 0 1 none).1.cache (0, 1) =
      some (get_edge ⟨fun _ => (3, 4), fun _ => none,
        fun _ => false⟩ 0 1 none).2 :=
  get_edge_fallback_properties
    ⟨fun _ => (3, 4), fun _ => none, fun _ => false⟩ 0 1 rfl

/-- C7 counterexample: two distinct nodes at identical coordinates (e.g. two
patients at the same address).  The failed-query fallback returns
`(0, 0)` — nonnegative but not positive, refuting the claim's strict
positivity. -/
theorem get_edge_fallback_zero_distance :
    (get_edge ⟨fun _ => (0, 0), fun _ => none,
      fun _ => false⟩ 0 1 none).2.1 = 0 ∧
    (get_edge ⟨fun _ => (0, 0), fun _ => none,
      fun _ => false⟩ 0 1 none).2.2 = 0 ∧
    ¬ (0 < (get_edge ⟨fun _ => (0, 0), fun _ => none,
      fun _ => false⟩ 0 1 none).2.1) := by
  have hd : haversine_m 0 0 0 0 = 0 := by
    norm_num [haversine_m, radians]
  have h : (get_edge ⟨fun _ => (0, 0), fun _ => none,
      fun _ => false⟩ 0 1 none).2 = (0, 0) := by
    simp [get_edge, hd]
  refine ⟨by rw [h], by rw [h], by rw [h]; norm_num⟩
